import Mathlib

/-!
Shallow embedding of `src/payloads/v9/message.ts` (discord-api-types, API v9
message payloads) together with the validation / normalization engine that the
specification describes over these types.

The source file consists of TypeScript type declarations (interfaces, enums and
union types).  Enums and the structural shape of the variant types are embedded
directly from the source.  The operational parts of the specification
(the bitfield codec, the field validator, the component-tree validator, the
discriminant resolver and the normalizer/serializer) have no implementation
under `src/`; they are modelled from the specification's words, faithful to the
registries and variant shapes declared in the source.  Definitions modelled
this way carry a doc comment starting with `Modelled from the spec:`.

The file is organized as: all definitions first, then all lemmas and theorems.
-/

namespace DiscordV9

/-! ## MessageFlags (src lines 370-419)

The `MessageFlags` enum.  Each constructor is one named flag; `value` gives the
bit value exactly as declared in the source (`1 << 0` … `1 << 13`, with bits 9
and 11 unused, and nothing at or above bit 14). -/

inductive MessageFlag where
  | Crossposted
  | IsCrosspost
  | SuppressEmbeds
  | SourceMessageDeleted
  | Urgent
  | HasThread
  | Ephemeral
  | Loading
  | FailedToMentionSomeRolesInThread
  | ShouldShowLinkNotDiscordWarning
  | SuppressNotifications
  | IsVoiceMessage
  deriving DecidableEq, Fintype

/-- Bit values of the `MessageFlags` enum members, as declared in the source. -/
def MessageFlag.value : MessageFlag → Nat
  | .Crossposted => 1 <<< 0
  | .IsCrosspost => 1 <<< 1
  | .SuppressEmbeds => 1 <<< 2
  | .SourceMessageDeleted => 1 <<< 3
  | .Urgent => 1 <<< 4
  | .HasThread => 1 <<< 5
  | .Ephemeral => 1 <<< 6
  | .Loading => 1 <<< 7
  | .FailedToMentionSomeRolesInThread => 1 <<< 8
  | .ShouldShowLinkNotDiscordWarning => 1 <<< 10
  | .SuppressNotifications => 1 <<< 12
  | .IsVoiceMessage => 1 <<< 13

/-- All named flags of the `MessageFlags` registry, in declaration order. -/
def allMessageFlags : List MessageFlag :=
  [.Crossposted, .IsCrosspost, .SuppressEmbeds, .SourceMessageDeleted, .Urgent,
   .HasThread, .Ephemeral, .Loading, .FailedToMentionSomeRolesInThread,
   .ShouldShowLinkNotDiscordWarning, .SuppressNotifications, .IsVoiceMessage]

/-- The *known mask*: OR of all named `MessageFlags` bit values. -/
def knownMask : Nat :=
  allMessageFlags.foldr (fun fl acc => fl.value ||| acc) 0

/-- Modelled from the spec: the flag-set half of the Bitfield Codec's `decode`
(no implementation under `src/`; spec §4.4).  A named flag is in the decoded
set exactly when its bit is set in the raw integer. -/
def decodeFlags (r : Nat) : MessageFlag → Bool :=
  fun fl => (r &&& fl.value) != 0

/-- Modelled from the spec: the flag-set half of the Bitfield Codec's `encode`
(no implementation under `src/`): OR of the bit values of the present named
flags. -/
def encodeFlags (f : MessageFlag → Bool) : Nat :=
  allMessageFlags.foldr (fun fl acc => (if f fl then fl.value else 0) ||| acc) 0

/-- Modelled from the spec: `decode(rawInteger) → (namedFlags, preservedBits)` of
the Bitfield Codec (no implementation under `src/`); `preservedBits` is
`rawInteger & ~knownMask`, written here as `r ^^^ (r &&& knownMask)` which
clears exactly the known bits of `r`. -/
def decode (r : Nat) : (MessageFlag → Bool) × Nat :=
  (decodeFlags r, r ^^^ (r &&& knownMask))

/-- Modelled from the spec: `encode(namedFlags, preservedBits) → rawInteger`
of the Bitfield Codec (no implementation under `src/`). -/
def encode (f : MessageFlag → Bool) (p : Nat) : Nat :=
  encodeFlags f ||| p

/-- A sample flag set (Crossposted and IsVoiceMessage), used as a concrete
input for the bitfield round-trip theorem. -/
def sampleFlagSet : MessageFlag → Bool
  | .Crossposted => true
  | .IsVoiceMessage => true
  | _ => false

/-! ## Error taxonomy (spec §7; no implementation under `src/`) -/

/-- Modelled from the spec: the error taxonomy of §7 (no implementation under
`src/`).  `MissingField` and `TypeMismatch` carry the field path,
`OutOfRange` names the offending field. -/
inductive ValidationError where
  | MissingField (path : String)
  | TypeMismatch (path : String)
  | MissingDiscriminant
  | UnknownVariant
  | InvalidVariantCombination
  | OutOfRange (field : String)
  | NestedContainerNotAllowed
  | TooManyChildren
  | InvalidRowComposition
  | PayloadTooLarge
  deriving DecidableEq

/-! ## ComponentType (src lines 918-960), ButtonStyle (src lines 1043-1050),
TextInputStyle (src lines 1055-1058) -/

inductive ComponentType where
  | ActionRow
  | Button
  | StringSelect
  | TextInput
  | UserSelect
  | RoleSelect
  | MentionableSelect
  | ChannelSelect
  deriving DecidableEq, Fintype

/-- Discriminant values of the `ComponentType` enum (`ActionRow = 1` …). -/
def ComponentType.value : ComponentType → Nat
  | .ActionRow => 1
  | .Button => 2
  | .StringSelect => 3
  | .TextInput => 4
  | .UserSelect => 5
  | .RoleSelect => 6
  | .MentionableSelect => 7
  | .ChannelSelect => 8

/-- Deprecated old name for the renamed enum member `StringSelect`
(src line 959: `SelectMenu = 3`); it denotes the same registered variant. -/
def ComponentType.SelectMenu : ComponentType := .StringSelect

def allComponentTypes : List ComponentType :=
  [.ActionRow, .Button, .StringSelect, .TextInput, .UserSelect, .RoleSelect,
   .MentionableSelect, .ChannelSelect]

inductive ButtonStyle where
  | Primary
  | Secondary
  | Success
  | Danger
  | Link
  | Premium
  deriving DecidableEq, Fintype

/-- Discriminant values of the `ButtonStyle` enum (`Primary = 1` …). -/
def ButtonStyle.value : ButtonStyle → Nat
  | .Primary => 1
  | .Secondary => 2
  | .Success => 3
  | .Danger => 4
  | .Link => 5
  | .Premium => 6

def allButtonStyles : List ButtonStyle :=
  [.Primary, .Secondary, .Success, .Danger, .Link, .Premium]

inductive TextInputStyle where
  | Short
  | Paragraph
  deriving DecidableEq, Fintype

def TextInputStyle.value : TextInputStyle → Nat
  | .Short => 1
  | .Paragraph => 2

/-! ## MessageType (src lines 259-301), MessageActivityType (src lines 346-351),
MessageReferenceType (src lines 356-365) -/

inductive MessageType where
  | Default
  | RecipientAdd
  | RecipientRemove
  | Call
  | ChannelNameChange
  | ChannelIconChange
  | ChannelPinnedMessage
  | UserJoin
  | GuildBoost
  | GuildBoostTier1
  | GuildBoostTier2
  | GuildBoostTier3
  | ChannelFollowAdd
  | GuildDiscoveryDisqualified
  | GuildDiscoveryRequalified
  | GuildDiscoveryGracePeriodInitialWarning
  | GuildDiscoveryGracePeriodFinalWarning
  | ThreadCreated
  | Reply
  | ChatInputCommand
  | ThreadStarterMessage
  | GuildInviteReminder
  | ContextMenuCommand
  | AutoModerationAction
  | RoleSubscriptionPurchase
  | InteractionPremiumUpsell
  | StageStart
  | StageEnd
  | StageSpeaker
  | StageRaiseHand
  | StageTopic
  | GuildApplicationPremiumSubscription
  | GuildIncidentAlertModeEnabled
  | GuildIncidentAlertModeDisabled
  | GuildIncidentReportRaid
  | GuildIncidentReportFalseAlarm
  deriving DecidableEq, Fintype

/-- Discriminant values of the `MessageType` enum: `0`-`12` implicitly, then an
explicit jump to `14` (`GuildDiscoveryDisqualified = 14`), `14`-`32`
implicitly, then an explicit jump to `36` (`GuildIncidentAlertModeEnabled =
36`); `13` and `33`-`35` carry no registered variant. -/
def MessageType.value : MessageType → Nat
  | .Default => 0
  | .RecipientAdd => 1
  | .RecipientRemove => 2
  | .Call => 3
  | .ChannelNameChange => 4
  | .ChannelIconChange => 5
  | .ChannelPinnedMessage => 6
  | .UserJoin => 7
  | .GuildBoost => 8
  | .GuildBoostTier1 => 9
  | .GuildBoostTier2 => 10
  | .GuildBoostTier3 => 11
  | .ChannelFollowAdd => 12
  | .GuildDiscoveryDisqualified => 14
  | .GuildDiscoveryRequalified => 15
  | .GuildDiscoveryGracePeriodInitialWarning => 16
  | .GuildDiscoveryGracePeriodFinalWarning => 17
  | .ThreadCreated => 18
  | .Reply => 19
  | .ChatInputCommand => 20
  | .ThreadStarterMessage => 21
  | .GuildInviteReminder => 22
  | .ContextMenuCommand => 23
  | .AutoModerationAction => 24
  | .RoleSubscriptionPurchase => 25
  | .InteractionPremiumUpsell => 26
  | .StageStart => 27
  | .StageEnd => 28
  | .StageSpeaker => 29
  | .StageRaiseHand => 30
  | .StageTopic => 31
  | .GuildApplicationPremiumSubscription => 32
  | .GuildIncidentAlertModeEnabled => 36
  | .GuildIncidentAlertModeDisabled => 37
  | .GuildIncidentReportRaid => 38
  | .GuildIncidentReportFalseAlarm => 39

def allMessageTypes : List MessageType :=
  [.Default, .RecipientAdd, .RecipientRemove, .Call, .ChannelNameChange,
   .ChannelIconChange, .ChannelPinnedMessage, .UserJoin, .GuildBoost,
   .GuildBoostTier1, .GuildBoostTier2, .GuildBoostTier3, .ChannelFollowAdd,
   .GuildDiscoveryDisqualified, .GuildDiscoveryRequalified,
   .GuildDiscoveryGracePeriodInitialWarning, .GuildDiscoveryGracePeriodFinalWarning,
   .ThreadCreated, .Reply, .ChatInputCommand, .ThreadStarterMessage,
   .GuildInviteReminder, .ContextMenuCommand, .AutoModerationAction,
   .RoleSubscriptionPurchase, .InteractionPremiumUpsell, .StageStart, .StageEnd,
   .StageSpeaker, .StageRaiseHand, .StageTopic, .GuildApplicationPremiumSubscription,
   .GuildIncidentAlertModeEnabled, .GuildIncidentAlertModeDisabled,
   .GuildIncidentReportRaid, .GuildIncidentReportFalseAlarm]

inductive MessageActivityType where
  | Join
  | Spectate
  | Listen
  | JoinRequest
  deriving DecidableEq, Fintype

/-- Discriminant values of `MessageActivityType` (`Join = 1`, …,
`JoinRequest = 5`; value `4` is skipped in the source). -/
def MessageActivityType.value : MessageActivityType → Nat
  | .Join => 1
  | .Spectate => 2
  | .Listen => 3
  | .JoinRequest => 5

def allMessageActivityTypes : List MessageActivityType :=
  [.Join, .Spectate, .Listen, .JoinRequest]

inductive MessageReferenceType where
  | Default
  | Forward
  deriving DecidableEq, Fintype

def MessageReferenceType.value : MessageReferenceType → Nat
  | .Default => 0
  | .Forward => 1

def allMessageReferenceTypes : List MessageReferenceType :=
  [.Default, .Forward]

/-! ## Registry lookups (spec §4.1: `lookup(tag) → schema | UnknownVariant`) -/

/-- Modelled from the spec: registry lookup for message discriminants (no
implementation under `src/`); scans the immutable table built from the
`MessageType` enum. -/
def messageTypeFromValue (n : Int) : Option MessageType :=
  allMessageTypes.find? (fun t => (t.value : Int) == n)

/-- Modelled from the spec: registry membership test for message discriminants
(no implementation under `src/`). -/
def isRegisteredMessageType (n : Int) : Bool :=
  allMessageTypes.any (fun t => (t.value : Int) == n)

/-- Modelled from the spec: registry lookup for component discriminants (no
implementation under `src/`). -/
def componentTypeFromValue (n : Nat) : Option ComponentType :=
  allComponentTypes.find? (fun t => t.value == n)

/-- Modelled from the spec: registry lookup for button styles (no
implementation under `src/`). -/
def buttonStyleFromValue (n : Nat) : Option ButtonStyle :=
  allButtonStyles.find? (fun t => t.value == n)

/-- Modelled from the spec: registry lookup for message activity types (no
implementation under `src/`). -/
def messageActivityTypeFromValue (n : Nat) : Option MessageActivityType :=
  allMessageActivityTypes.find? (fun t => t.value == n)

/-- Modelled from the spec: registry lookup for message reference types (no
implementation under `src/`). -/
def messageReferenceTypeFromValue (n : Nat) : Option MessageReferenceType :=
  allMessageReferenceTypes.find? (fun t => t.value == n)

/-! ## Buttons (src lines 976-1050) -/

/-- APIMessageComponentEmoji (src lines 995-1008): all three fields optional.
Snowflake ids are strings on the wire. -/
structure APIMessageComponentEmoji where
  id : Option String
  name : Option String
  animated : Option Bool
  deriving DecidableEq

/-- APIButtonComponentWithCustomId (src lines 1010-1018): base button fields
plus a required `custom_id`; the style is narrowed to
`Danger | Primary | Secondary | Success`. -/
structure APIButtonComponentWithCustomId where
  style : ButtonStyle
  style_mem : style = .Primary ∨ style = .Secondary ∨ style = .Success ∨ style = .Danger
  label : Option String
  emoji : Option APIMessageComponentEmoji
  disabled : Option Bool
  custom_id : String

/-- APIButtonComponentWithURL (src lines 1020-1025): base button fields plus a
required `url`; the style is narrowed to `Link`. -/
structure APIButtonComponentWithURL where
  style : ButtonStyle
  style_mem : style = .Link
  label : Option String
  emoji : Option APIMessageComponentEmoji
  disabled : Option Bool
  url : String

/-- APIButtonComponentWithSKUId (src lines 1027-1033): the base button shape
with `custom_id`, `emoji` and `label` omitted (`Omit<..., 'custom_id' | 'emoji'
| 'label'>`), plus a required `sku_id`; the style is narrowed to `Premium`. -/
structure APIButtonComponentWithSKUId where
  style : ButtonStyle
  style_mem : style = .Premium
  disabled : Option Bool
  sku_id : String

/-- APIButtonComponent (src lines 1035-1038): union of the three button
variants. -/
inductive APIButtonComponent where
  | withCustomId (b : APIButtonComponentWithCustomId)
  | withURL (b : APIButtonComponentWithURL)
  | withSKUId (b : APIButtonComponentWithSKUId)

def APIButtonComponent.style : APIButtonComponent → ButtonStyle
  | .withCustomId b => b.style
  | .withURL b => b.style
  | .withSKUId b => b.style

/-- Field view of `label` over the union: structurally excluded (hence Absent)
on the SKU variant. -/
def APIButtonComponent.label : APIButtonComponent → Option String
  | .withCustomId b => b.label
  | .withURL b => b.label
  | .withSKUId _ => none

/-- Field view of `emoji` over the union: structurally excluded (hence Absent)
on the SKU variant. -/
def APIButtonComponent.emoji : APIButtonComponent → Option APIMessageComponentEmoji
  | .withCustomId b => b.emoji
  | .withURL b => b.emoji
  | .withSKUId _ => none

def APIButtonComponent.custom_id : APIButtonComponent → Option String
  | .withCustomId b => some b.custom_id
  | _ => none

def APIButtonComponent.url : APIButtonComponent → Option String
  | .withURL b => some b.url
  | _ => none

def APIButtonComponent.sku_id : APIButtonComponent → Option String
  | .withSKUId b => some b.sku_id
  | _ => none

def APIButtonComponent.disabled : APIButtonComponent → Option Bool
  | .withCustomId b => b.disabled
  | .withURL b => b.disabled
  | .withSKUId b => b.disabled

/-- A raw (wire-level) button payload before variant resolution: the union of
all fields that may appear on any button variant, each key either present or
absent. -/
structure RawButton where
  style : ButtonStyle
  custom_id : Option String
  url : Option String
  sku_id : Option String
  label : Option String
  emoji : Option APIMessageComponentEmoji
  disabled : Option Bool
  deriving DecidableEq

/-- The style-determined key field of a button. -/
inductive ButtonKey where
  | customId
  | keyURL
  | skuId
  deriving DecidableEq

/-- Which of `custom_id` / `url` / `sku_id` a declared style requires, read off
the source union: `APIButtonComponentWithCustomId` covers Primary, Secondary,
Success and Danger; `APIButtonComponentWithURL` covers Link;
`APIButtonComponentWithSKUId` covers Premium. -/
def styleKey : ButtonStyle → ButtonKey
  | .Primary => .customId
  | .Secondary => .customId
  | .Success => .customId
  | .Danger => .customId
  | .Link => .keyURL
  | .Premium => .skuId

/-- Projection of a raw button's key fields by key name. -/
def keyField (b : RawButton) : ButtonKey → Option String
  | .customId => b.custom_id
  | .keyURL => b.url
  | .skuId => b.sku_id

/-- Number of the three key fields that are Present on a raw button. -/
def presentKeyCount (b : RawButton) : Nat :=
  (if b.custom_id.isSome then 1 else 0) + (if b.url.isSome then 1 else 0) +
    (if b.sku_id.isSome then 1 else 0)

/-- Modelled from the spec: the cross-field exclusivity check of the Field
Validator for button-like variants (no implementation under `src/`; spec §4.3):
exactly the style-determined key must be Present, the other two Absent;
any other combination is `InvalidVariantCombination`. -/
def validateButton (b : RawButton) : Except ValidationError Unit :=
  match styleKey b.style with
  | .customId =>
    if b.custom_id.isSome && b.url.isNone && b.sku_id.isNone then .ok ()
    else .error .InvalidVariantCombination
  | .keyURL =>
    if b.url.isSome && b.custom_id.isNone && b.sku_id.isNone then .ok ()
    else .error .InvalidVariantCombination
  | .skuId =>
    if b.sku_id.isSome && b.custom_id.isNone && b.url.isNone then .ok ()
    else .error .InvalidVariantCombination

/-- A well-formed Link button payload, used as a concrete witness input. -/
def sampleButton : RawButton :=
  { style := .Link, custom_id := none, url := some "https://example.com",
    sku_id := none, label := some "Open", emoji := none, disabled := none }

/-- A malformed button payload (Primary style but a `url` key instead of
`custom_id`), used as a concrete witness input. -/
def badButton : RawButton :=
  { style := .Primary, custom_id := none, url := some "https://example.com",
    sku_id := none, label := none, emoji := none, disabled := none }

/-! ## Select menus (src lines 1063-1097) and text inputs (src lines 1220-1253) -/

/-- A raw select-menu payload, with the fields of
`APIBaseSelectMenuComponent`: required `custom_id`, optional `placeholder`,
`min_values`, `max_values`, `disabled`. -/
structure RawSelectMenu where
  menu_type : ComponentType
  custom_id : String
  placeholder : Option String
  min_values : Option Int
  max_values : Option Int
  disabled : Option Bool
  deriving DecidableEq

/-- A raw text-input payload, with the fields of `APITextInputComponent`. -/
structure RawTextInput where
  style : TextInputStyle
  custom_id : String
  label : String
  placeholder : Option String
  value : Option String
  min_length : Option Int
  max_length : Option Int
  required : Option Bool
  deriving DecidableEq

/-- Modelled from the spec: the `[0, 25]` range check of the Field Validator
for selection bounds (no implementation under `src/`; spec §4.3 and the
source's doc comments on `min_values` / `max_values`): an out-of-range value
fails `OutOfRange` naming the field. -/
def checkRange25 (field : String) (v : Option Int) : Except ValidationError Unit :=
  match v with
  | none => .ok ()
  | some n => if 0 ≤ n ∧ n ≤ 25 then .ok () else .error (.OutOfRange field)

/-- Modelled from the spec: validation of a select-menu component's bounds (no
implementation under `src/`); `min_values` is checked before `max_values`. -/
def validateSelectMenu (m : RawSelectMenu) : Except ValidationError Unit := do
  checkRange25 "min_values" m.min_values
  checkRange25 "max_values" m.max_values

/-- A well-formed select menu payload, used as a concrete witness input. -/
def sampleSelect : RawSelectMenu :=
  { menu_type := .StringSelect, custom_id := "pick", placeholder := none,
    min_values := some 0, max_values := some 3, disabled := none }

/-- The spec's out-of-range scenario: `min_values: 0, max_values: 26`. -/
def outOfRangeSelect : RawSelectMenu :=
  { menu_type := .StringSelect, custom_id := "pick", placeholder := none,
    min_values := some 0, max_values := some 26, disabled := none }

/-! ## Component trees (src lines 908-971 and 1258-1269) -/

/-- A raw component-tree node.  `actionRow` is the container variant
(ComponentType 1); buttons, select menus and text inputs are the leaf
variants (`APIActionRowComponentTypes`, src line 1261). -/
inductive RawComponent where
  | actionRow (components : List RawComponent)
  | button (b : RawButton)
  | selectMenu (m : RawSelectMenu)
  | textInput (t : RawTextInput)

/-- Container test: only `actionRow` (ComponentType 1) is a container. -/
def RawComponent.isContainer : RawComponent → Bool
  | .actionRow _ => true
  | _ => false

/-- Selection-control test. -/
def RawComponent.isSelect : RawComponent → Bool
  | .selectMenu _ => true
  | _ => false

/-- Modelled from the spec: per-container arity limit (maximum child count) of
the Component Tree Validator (no implementation under `src/`; spec §4.5/§6). -/
def maxRowChildren : Nat := 5

/-- Modelled from the spec: validation of one child of a container (no
implementation under `src/`): a container appearing inside another container
fails `NestedContainerNotAllowed`; leaf variants are validated by their own
rules. -/
def validateLeaf : RawComponent → Except ValidationError Unit
  | .actionRow _ => .error .NestedContainerNotAllowed
  | .button b => validateButton b
  | .selectMenu m => validateSelectMenu m
  | .textInput _ => .ok ()

def validateEach : List RawComponent → Except ValidationError Unit
  | [] => .ok ()
  | c :: rest => do
    validateLeaf c
    validateEach rest

/-- Test that a row consists of a single selection control and nothing else. -/
def isSingletonSelect : List RawComponent → Bool
  | [c] => c.isSelect
  | _ => false

/-- Modelled from the spec: the row composition policy (spec §4.5): a row is
either all non-selection controls, or a single selection control occupying the
row alone. -/
def rowCompositionOk (row : List RawComponent) : Bool :=
  row.all (fun c => !c.isSelect) || isSingletonSelect row

/-- Modelled from the spec: validation of a container (action row) node (no
implementation under `src/`; spec §4.5): a nested container fails
`NestedContainerNotAllowed`, then the arity limit is enforced
(`TooManyChildren`), then the row composition policy
(`InvalidRowComposition`), then each leaf child is validated. -/
def validateRow (row : List RawComponent) : Except ValidationError Unit :=
  if row.any RawComponent.isContainer then .error .NestedContainerNotAllowed
  else if maxRowChildren < row.length then .error .TooManyChildren
  else if rowCompositionOk row then validateEach row
  else .error .InvalidRowComposition

/-- Modelled from the spec: validation of a message's component forest (no
implementation under `src/`; spec §4.5): the root accepts a sequence of
container nodes; a non-container at the root is a type mismatch. -/
def validateComponents : List RawComponent → Except ValidationError Unit
  | [] => .ok ()
  | .actionRow row :: rest => do
    validateRow row
    validateComponents rest
  | _ :: _ => .error (.TypeMismatch "components")

/-- A Premium (SKU) button value, used as a concrete witness input. -/
def premiumButton : APIButtonComponent :=
  .withSKUId { style := .Premium, style_mem := rfl, disabled := none,
               sku_id := "1234567890" }

/-! ## Wire values, tri-state field presence, and the message normalizer
(spec §3, §4.3, §4.6; src lines 18-254 for the `APIMessage` field list) -/

/-- A loosely-typed wire value, as delivered by the external transport. -/
inductive Json where
  | null
  | bool (b : Bool)
  | num (n : Int)
  | str (s : String)
  | arr (elems : List Json)
  | obj (fields : List (String × Json))

/-- The three presence states of a field (spec §3): Absent, Null, or
Present(value) — never conflated. -/
inductive FieldState where
  | absent
  | null
  | present (v : Json)

/-- First-match lookup of a key in an association list (a wire object's
fields, or a canonical form's field table). -/
def lookupField {α : Type} : List (String × α) → String → Option α
  | [], _ => none
  | (k', v) :: rest, k => if k' = k then some v else lookupField rest k

/-- Modelled from the spec: classification of an observed wire field into
exactly one of the three presence states (no implementation under `src/`;
spec §3): a missing key is Absent, a key with the null token is Null, any
other key is Present with its value. -/
def classifyVal : Option Json → FieldState
  | none => .absent
  | some Json.null => .null
  | some v => .present v

/-- Modelled from the spec: the serializer's per-field emission rule (no
implementation under `src/`; spec §4.6): an Absent field is omitted, a Null
field is emitted as null, a Present field is emitted with its value. -/
def emitVal : FieldState → Option Json
  | .absent => none
  | .null => some Json.null
  | .present v => some v

/-- A canonical field state never holds the null token under `present`
(classification sends a null wire value to the `null` state instead). -/
def wellFormedState : FieldState → Bool
  | .present Json.null => false
  | _ => true

/-- The field names of the `APIMessage` interface (src lines 18-254), in
declaration order. -/
def messageFieldNames : List String :=
  ["id", "channel_id", "author", "content", "timestamp", "edited_timestamp",
   "tts", "mention_everyone", "mentions", "mention_roles", "mention_channels",
   "attachments", "embeds", "reactions", "nonce", "pinned", "webhook_id",
   "type", "activity", "application", "application_id", "message_reference",
   "flags", "referenced_message", "interaction_metadata", "interaction",
   "thread", "components", "sticker_items", "stickers", "position", "resolved",
   "poll", "message_snapshots", "call"]

/-- The `APIMessage` fields declared without `?` and without `| null` in the
source: these must be Present. -/
def requiredMessageFields : List String :=
  ["id", "channel_id", "author", "content", "timestamp", "tts",
   "mention_everyone", "mentions", "mention_roles", "attachments", "embeds",
   "pinned", "type"]

/-- The `APIMessage` fields declared without `?` but with `| null`
(`edited_timestamp: string | null`): Present or Null, never Absent. -/
def requiredNullableMessageFields : List String :=
  ["edited_timestamp"]

/-- The `APIMessage` fields declared with both `?` and `| null`
(`referenced_message?: APIMessage | null`): all three states are legal. -/
def optionalNullableMessageFields : List String :=
  ["referenced_message"]

/-- Presence policy of a field spec (spec §3 `FieldSpec`). -/
inductive PresencePolicy where
  | required
  | requiredNullable
  | optional
  | optionalNullable
  deriving DecidableEq

/-- The presence policy of each `APIMessage` field, read off the `?` and
`| null` markers of the source interface; unknown keys default to optional. -/
def messagePolicy (k : String) : PresencePolicy :=
  if k ∈ requiredMessageFields then .required
  else if k ∈ requiredNullableMessageFields then .requiredNullable
  else if k ∈ optionalNullableMessageFields then .optionalNullable
  else .optional

/-- Which presence states a policy admits. -/
def fieldStateOk : PresencePolicy → FieldState → Bool
  | .required, .present _ => true
  | .required, _ => false
  | .requiredNullable, .absent => false
  | .requiredNullable, _ => true
  | .optional, .null => false
  | .optional, _ => true
  | .optionalNullable, _ => true

/-- Modelled from the spec: the Field Validator's per-field presence check (no
implementation under `src/`; spec §4.3): a missing required field is
`MissingField`, a null value where null is not admitted is `TypeMismatch`. -/
def checkFieldPolicy (k : String) (t : FieldState) : Except ValidationError Unit :=
  match messagePolicy k, t with
  | .required, .absent => .error (.MissingField k)
  | .required, .null => .error (.TypeMismatch k)
  | .requiredNullable, .absent => .error (.MissingField k)
  | .optional, .null => .error (.TypeMismatch k)
  | _, _ => .ok ()

/-- Modelled from the spec: the Field Validator's walk over the resolved
variant's field specs (no implementation under `src/`; fail-fast order). -/
def validateFieldList : List String → List (String × Json) → Except ValidationError Unit
  | [], _ => .ok ()
  | k :: rest, w => do
    checkFieldPolicy k (classifyVal (lookupField w k))
    validateFieldList rest w

/-- The canonical message (spec §3 `CanonicalMessage`): one presence-tagged
entry per schema field, plus an opaque bag of unrecognized top-level fields. -/
structure CanonicalMessage where
  known : List (String × FieldState)
  extras : List (String × Json)

/-- Modelled from the spec: the Normalizer (no implementation under `src/`;
spec §4.6): classifies every schema field of the wire object into its presence
state and retains all top-level fields not covered by the schema in the extras
bag. -/
def normalizeMessage (w : List (String × Json)) : CanonicalMessage :=
  { known := messageFieldNames.map (fun k => (k, classifyVal (lookupField w k))),
    extras := w.filter (fun kv => !(decide (kv.1 ∈ messageFieldNames))) }

/-- Modelled from the spec: the Serializer (no implementation under `src/`;
spec §4.6): emits each canonical field by the three-state emission rule and
appends the extras bag. -/
def serializeMessage (c : CanonicalMessage) : List (String × Json) :=
  (c.known.filterMap (fun kt => (emitVal kt.2).map (fun v => (kt.1, v)))) ++ c.extras

/-- Modelled from the spec: conformance of a wire message to a registered
variant: its discriminant is a registered `MessageType` value and every schema
field's observed presence state is admitted by that field's policy. -/
def conformsMessage (w : List (String × Json)) : Bool :=
  (match lookupField w "type" with
   | some (Json.num n) => isRegisteredMessageType n
   | _ => false) &&
  messageFieldNames.all (fun k => fieldStateOk (messagePolicy k) (classifyVal (lookupField w k)))

/-! ## Discriminant resolver (spec §4.2) -/

/-- Validation policy toggle (spec §6). -/
inductive StrictnessMode where
  | strict
  | lenient
  deriving DecidableEq

/-- The outcome of resolving a message payload's discriminant: a registered
variant, or (in lenient mode) the generic fallback that still exposes the
universally-shared fields plus the unrecognized-fields bag. -/
inductive ResolvedMessage where
  | variant (t : MessageType) (c : CanonicalMessage)
  | generic (c : CanonicalMessage)

/-- Modelled from the spec: the registry-outcome half of the Discriminant
Resolver (no implementation under `src/`; spec §4.2): a registered variant is
taken as-is; an unknown discriminant fails `UnknownVariant` in strict mode and
falls back to the generic variant in lenient mode. -/
def resolveRegistered (mode : StrictnessMode) (c : CanonicalMessage) :
    Option MessageType → Except ValidationError ResolvedMessage
  | some t => .ok (.variant t c)
  | none =>
    match mode with
    | .strict => .error .UnknownVariant
    | .lenient => .ok (.generic c)

/-- Modelled from the spec: the Discriminant Resolver for messages (no
implementation under `src/`; spec §4.2): extracts the `type` field; fails
`MissingDiscriminant` when absent; a non-integer discriminant is a type
mismatch; otherwise the registry lookup decides the outcome. -/
def resolveMessage (mode : StrictnessMode) (w : List (String × Json)) :
    Except ValidationError ResolvedMessage :=
  match lookupField w "type" with
  | none => .error .MissingDiscriminant
  | some (Json.num n) => resolveRegistered mode (normalizeMessage w) (messageTypeFromValue n)
  | some _ => .error (.TypeMismatch "type")

/-- Modelled from the spec: whole-message validation (no implementation under
`src/`): resolve the discriminant, then run the per-field presence checks of
the resolved variant's shared field specs, and return the canonical result. -/
def validateMessage (mode : StrictnessMode) (w : List (String × Json)) :
    Except ValidationError ResolvedMessage := do
  let r ← resolveMessage mode w
  validateFieldList messageFieldNames w
  pure r

/-! ## Reply-reference tri-state (src lines 171-184: the `referenced_message`
doc comment distinguishes the three outcomes) -/

/-- The resolution status of a reply's referenced message. -/
inductive RefResolution where
  | notAttempted
  | deleted
  | resolved (v : Json)

/-- Modelled from the spec: how a canonical reply marks its referenced
message (no implementation under `src/`; src lines 171-184 document the
intent): Absent means resolution was not attempted, Null means the referenced
message was deleted, Present carries the resolved message. -/
def refStatus (c : CanonicalMessage) : RefResolution :=
  match lookupField c.known "referenced_message" with
  | some .absent => .notAttempted
  | some .null => .deleted
  | some (.present v) => .resolved v
  | none => .notAttempted

/-! ## Concrete wire payloads used as witness inputs -/

/-- The spec's reply scenario with `referenced_message: null`. -/
def replyDeletedWire : List (String × Json) :=
  [("type", Json.num 19),
   ("message_reference", Json.obj [("channel_id", Json.str "1")]),
   ("referenced_message", Json.null)]

/-- The spec's reply scenario without the `referenced_message` key. -/
def replyUnresolvedWire : List (String × Json) :=
  [("type", Json.num 19),
   ("message_reference", Json.obj [("channel_id", Json.str "1")])]

/-- The spec's unknown-discriminant scenario: `type: 9999` plus shared fields
and one unrecognized field. -/
def unknownTypeWire : List (String × Json) :=
  [("type", Json.num 9999), ("id", Json.str "42"), ("content", Json.str "hi"),
   ("future_field", Json.bool true)]

/-- A minimal wire message conforming to the `Default` variant: every
required field present, `edited_timestamp` null, `referenced_message` absent. -/
def conformingWire : List (String × Json) :=
  [("id", Json.str "100"), ("channel_id", Json.str "200"),
   ("author", Json.obj [("id", Json.str "7")]), ("content", Json.str "hello"),
   ("timestamp", Json.str "2024-01-01T00:00:00Z"),
   ("edited_timestamp", Json.null), ("tts", Json.bool false),
   ("mention_everyone", Json.bool false), ("mentions", Json.arr []),
   ("mention_roles", Json.arr []), ("attachments", Json.arr []),
   ("embeds", Json.arr []), ("pinned", Json.bool false),
   ("type", Json.num 0), ("future_field", Json.bool true)]

/-! # Lemmas and theorems -/

/-! ## Bitwise helper lemmas for the Bitfield Codec (claim C1) -/

lemma land_lor_right (a b c : Nat) : (a ||| b) &&& c = (a &&& c) ||| (b &&& c) := by
  apply Nat.eq_of_testBit_eq
  intro i
  simp [Nat.testBit_land, Nat.testBit_lor, Bool.and_or_distrib_right]

lemma land_lor_left (a b c : Nat) : a &&& (b ||| c) = (a &&& b) ||| (a &&& c) := by
  apply Nat.eq_of_testBit_eq
  intro i
  simp [Nat.testBit_land, Nat.testBit_lor, Bool.and_or_distrib_left]

lemma ite_land_pow (r k : Nat) :
    (if (r &&& (1 <<< k)) != 0 then (1 <<< k) else 0) = r &&& (1 <<< k) := by
  have hpow : (1 : Nat) <<< k = 2 ^ k := by
    rw [Nat.shiftLeft_eq, one_mul]
  rw [hpow, Nat.and_two_pow]
  cases h : r.testBit k <;> simp [h]

lemma ite_land_value (r : Nat) (fl : MessageFlag) :
    (if (r &&& fl.value) != 0 then fl.value else 0) = r &&& fl.value := by
  cases fl <;> exact ite_land_pow r _

/-- On any sub-list of flags, encoding the decoded flag set computes the raw
integer masked by the OR of that sub-list's bit values. -/
lemma encodeFlags_decodeFlags_aux (r : Nat) (L : List MessageFlag) :
    L.foldr (fun fl acc => (if decodeFlags r fl then fl.value else 0) ||| acc) 0
      = r &&& L.foldr (fun fl acc => fl.value ||| acc) 0 := by
  induction L with
  | nil => simp
  | cons a L ih =>
    simp only [List.foldr_cons, ih, land_lor_left]
    rw [show decodeFlags r a = ((r &&& a.value) != 0) from rfl, ite_land_value]

lemma encodeFlags_decodeFlags (r : Nat) :
    encodeFlags (decodeFlags r) = r &&& knownMask :=
  encodeFlags_decodeFlags_aux r allMessageFlags

lemma land_lor_xor_self (r m : Nat) : (r &&& m) ||| (r ^^^ (r &&& m)) = r := by
  apply Nat.eq_of_testBit_eq
  intro i
  simp only [Nat.testBit_lor, Nat.testBit_xor, Nat.testBit_land]
  cases h1 : r.testBit i <;> cases h2 : m.testBit i <;> rfl

lemma value_land_value (a b : MessageFlag) :
    a.value &&& b.value = if a = b then b.value else 0 := by
  cases a <;> cases b <;> decide

lemma value_land_knownMask (fl : MessageFlag) : fl.value &&& knownMask = fl.value := by
  cases fl <;> decide

lemma value_ne_zero (fl : MessageFlag) : fl.value ≠ 0 := by
  cases fl <;> decide

/-- Masking an encoded flag set by a single flag's bit value isolates that
flag's contribution, provided the flag occurs in the sub-list. -/
lemma foldr_encode_land_value (f : MessageFlag → Bool) (fl : MessageFlag)
    (L : List MessageFlag) :
    (L.foldr (fun a acc => (if f a then a.value else 0) ||| acc) 0) &&& fl.value
      = if f fl ∧ fl ∈ L then fl.value else 0 := by
  induction L with
  | nil => simp
  | cons a L ih =>
    simp only [List.foldr_cons, land_lor_right, ih]
    have ha : (if f a then a.value else 0) &&& fl.value
        = if f a ∧ a = fl then fl.value else 0 := by
      by_cases h : f a <;> simp [h, value_land_value]
    rw [ha]
    by_cases hab : a = fl
    · subst hab
      by_cases hf : f a <;> by_cases hm : a ∈ L <;> simp [hf, hm, List.mem_cons]
    · have hab' : ¬ (fl = a) := fun hh => hab hh.symm
      by_cases hf : f fl <;> by_cases hm : fl ∈ L <;>
        simp [hab, hab', hf, hm, List.mem_cons]

lemma encodeFlags_land_value (f : MessageFlag → Bool) (fl : MessageFlag) :
    encodeFlags f &&& fl.value = if f fl then fl.value else 0 := by
  rw [encodeFlags, foldr_encode_land_value]
  have hmem : fl ∈ allMessageFlags := by cases fl <;> decide
  by_cases h : f fl <;> simp [h, hmem]

/-- An encoded flag set only carries bits inside the known mask. -/
lemma encodeFlags_land_knownMask (f : MessageFlag → Bool) :
    encodeFlags f &&& knownMask = encodeFlags f := by
  rw [encodeFlags]
  induction allMessageFlags with
  | nil => simp
  | cons a L ih =>
    simp only [List.foldr_cons, land_lor_right, ih]
    cases h : f a
    · simp
    · simp [value_land_knownMask]

/-- Bits lying outside the mask `m` pass through `x ^^^ (x &&& m)` untouched
when `x = e ||| p` with `e` inside the mask and `p` outside it. -/
lemma xor_land_mask_restore (e p m : Nat) (he : e &&& m = e) (hp : p &&& m = 0) :
    ((e ||| p) ^^^ ((e ||| p) &&& m)) = p := by
  apply Nat.eq_of_testBit_eq
  intro i
  have he' : (e.testBit i && m.testBit i) = e.testBit i := by
    rw [← Nat.testBit_land, he]
  have hp' : (p.testBit i && m.testBit i) = false := by
    rw [← Nat.testBit_land, hp, Nat.zero_testBit]
  simp only [Nat.testBit_xor, Nat.testBit_lor, Nat.testBit_land]
  cases h1 : e.testBit i <;> cases h2 : p.testBit i <;> cases h3 : m.testBit i <;>
    simp_all

lemma land_zero_of_subset (p v m : Nat) (hv : v &&& m = v) (hp : p &&& m = 0) :
    p &&& v = 0 := by
  apply Nat.eq_of_testBit_eq
  intro i
  have hv' : (v.testBit i && m.testBit i) = v.testBit i := by
    rw [← Nat.testBit_land, hv]
  have hp' : (p.testBit i && m.testBit i) = false := by
    rw [← Nat.testBit_land, hp, Nat.zero_testBit]
  simp only [Nat.testBit_land, Nat.zero_testBit]
  cases h1 : p.testBit i <;> cases h2 : v.testBit i <;> cases h3 : m.testBit i <;>
    simp_all

lemma encode_decode (r : Nat) : encode (decode r).1 (decode r).2 = r := by
  show encodeFlags (decodeFlags r) ||| (r ^^^ (r &&& knownMask)) = r
  rw [encodeFlags_decodeFlags, land_lor_xor_self]

lemma decodeFlags_encode (f : MessageFlag → Bool) (p : Nat)
    (hp : p &&& knownMask = 0) : decodeFlags (encode f p) = f := by
  funext fl
  show (((encodeFlags f ||| p) &&& fl.value) != 0) = f fl
  rw [land_lor_right, encodeFlags_land_value,
    land_zero_of_subset p fl.value knownMask (value_land_knownMask fl) hp]
  cases h : f fl
  · simp [h]
  · simp [h, value_ne_zero fl]

lemma preserved_encode (f : MessageFlag → Bool) (p : Nat)
    (hp : p &&& knownMask = 0) :
    (encode f p) ^^^ ((encode f p) &&& knownMask) = p :=
  xor_land_mask_restore _ _ _ (encodeFlags_land_knownMask f) hp

/-- C1: bitfield round-trip fidelity of the `MessageFlags` codec.  For every
raw integer `r`, `encode (decode r) = r` — including when `r` has bits set at
positions with no named flag (bits 9, 11, or at and above 14); and for every
named-flag set `f` and preserved bits `p` lying entirely outside the known
mask, `decode (encode f p) = (f, p)`. -/
theorem messageFlags_bitfield_roundTrip :
    (∀ r : Nat, encode (decode r).1 (decode r).2 = r) ∧
    (∀ (f : MessageFlag → Bool) (p : Nat), p &&& knownMask = 0 →
      decode (encode f p) = (f, p)) := by
  constructor
  · exact encode_decode
  · intro f p hp
    show (decodeFlags (encode f p), encode f p ^^^ (encode f p &&& knownMask)) = (f, p)
    rw [decodeFlags_encode f p hp, preserved_encode f p hp]

/-- Witness for C1: a concrete round trip at preserved bits `(1 <<< 9) |||
(1 <<< 14)`, which lie outside the known mask (bit 9 has no named flag, and
nothing at or above bit 14 is named). -/
theorem messageFlags_bitfield_roundTrip_witness :
    decode (encode sampleFlagSet ((1 <<< 9) ||| (1 <<< 14)))
      = (sampleFlagSet, (1 <<< 9) ||| (1 <<< 14)) :=
  messageFlags_bitfield_roundTrip.2 sampleFlagSet ((1 <<< 9) ||| (1 <<< 14))
    (by decide)

/-! ## Buttons: cross-field exclusivity (claim C2) and the Premium field
exclusions (claim C10) -/

/-- C2: a button-style payload validates successfully exactly when exactly one
of `custom_id` / `url` / `sku_id` is Present and it is the key determined by
the declared style (`custom_id` for Primary, Secondary, Success, Danger;
`url` for Link; `sku_id` for Premium, per `styleKey`); every other combination
of those three fields fails with `InvalidVariantCombination`. -/
theorem button_style_exclusivity (b : RawButton) :
    (validateButton b = .ok () ↔
      (presentKeyCount b = 1 ∧ (keyField b (styleKey b.style)).isSome = true)) ∧
    (validateButton b ≠ .ok () →
      validateButton b = .error .InvalidVariantCombination) := by
  obtain ⟨s, cid, u, sk, lb, em, di⟩ := b
  cases s <;> cases cid <;> cases u <;> cases sk <;>
    simp [validateButton, styleKey, keyField, presentKeyCount]

/-- Witness for C2: the concrete malformed button (`Primary` style with a
`url` key) fails with `InvalidVariantCombination`. -/
theorem button_style_exclusivity_witness :
    validateButton badButton = .error .InvalidVariantCombination :=
  (button_style_exclusivity badButton).2 (fun h => Except.noConfusion h)

/-- C10: a button whose style is Premium structurally excludes `label`,
`emoji` and `custom_id` (they are always Absent) and carries `sku_id`;
whereas for every non-Premium style there are buttons of that style carrying
`label` and `emoji` (and no `sku_id`). -/
theorem premium_button_excludes_cosmetic_fields :
    (∀ c : APIButtonComponent, c.style = .Premium →
      c.label = none ∧ c.emoji = none ∧ c.custom_id = none ∧ c.url = none ∧
        c.sku_id.isSome = true) ∧
    (∀ s : ButtonStyle, s ≠ .Premium →
      ∃ c : APIButtonComponent, c.style = s ∧ c.label.isSome = true ∧
        c.emoji.isSome = true ∧ c.sku_id = none) := by
  constructor
  · intro c h
    cases c with
    | withCustomId b =>
      simp only [APIButtonComponent.style] at h
      rcases b.style_mem with h' | h' | h' | h' <;> rw [h'] at h <;>
        exact ButtonStyle.noConfusion h
    | withURL b =>
      simp only [APIButtonComponent.style] at h
      rw [b.style_mem] at h
      exact ButtonStyle.noConfusion h
    | withSKUId b =>
      exact ⟨rfl, rfl, rfl, rfl, rfl⟩
  · intro s hs
    cases s with
    | Premium => exact absurd rfl hs
    | Primary =>
      exact ⟨.withCustomId (APIButtonComponentWithCustomId.mk .Primary (Or.inl rfl)
        (some "Go") (some (APIMessageComponentEmoji.mk none (some "check") none))
        none "cid"), rfl, rfl, rfl, rfl⟩
    | Secondary =>
      exact ⟨.withCustomId (APIButtonComponentWithCustomId.mk .Secondary
        (Or.inr (Or.inl rfl))
        (some "Go") (some (APIMessageComponentEmoji.mk none (some "check") none))
        none "cid"), rfl, rfl, rfl, rfl⟩
    | Success =>
      exact ⟨.withCustomId (APIButtonComponentWithCustomId.mk .Success
        (Or.inr (Or.inr (Or.inl rfl)))
        (some "Go") (some (APIMessageComponentEmoji.mk none (some "check") none))
        none "cid"), rfl, rfl, rfl, rfl⟩
    | Danger =>
      exact ⟨.withCustomId (APIButtonComponentWithCustomId.mk .Danger
        (Or.inr (Or.inr (Or.inr rfl)))
        (some "Go") (some (APIMessageComponentEmoji.mk none (some "check") none))
        none "cid"), rfl, rfl, rfl, rfl⟩
    | Link =>
      exact ⟨.withURL (APIButtonComponentWithURL.mk .Link rfl (some "Open")
        (some (APIMessageComponentEmoji.mk none (some "link") none))
        none "https://example.com"), rfl, rfl, rfl, rfl⟩

/-- Witness for C10: the concrete Premium button has Absent `label`, `emoji`,
`custom_id` and `url`, and a Present `sku_id`. -/
theorem premium_button_excludes_cosmetic_fields_witness :
    premiumButton.label = none ∧ premiumButton.emoji = none ∧
      premiumButton.custom_id = none ∧ premiumButton.url = none ∧
      premiumButton.sku_id.isSome = true :=
  premium_button_excludes_cosmetic_fields.1 premiumButton rfl

/-! ## Component trees: no nested containers (claim C3), row composition
(claim C6) -/

/-- C3: a container node (ActionRow, ComponentType 1) occurring as a child of
another container is rejected with `NestedContainerNotAllowed`; consequently a
successfully validated row contains no container child — every child is a leaf
variant. -/
theorem nested_container_rejected :
    (∀ (row cs : List RawComponent), RawComponent.actionRow cs ∈ row →
      validateRow row = .error .NestedContainerNotAllowed) ∧
    (∀ row : List RawComponent, validateRow row = .ok () →
      ∀ c ∈ row, c.isContainer = false) := by
  constructor
  · intro row cs hmem
    have hany : row.any RawComponent.isContainer = true :=
      List.any_eq_true.mpr ⟨_, hmem, rfl⟩
    simp [validateRow, hany]
  · intro row hok c hc
    cases hcv : c.isContainer
    · rfl
    · exfalso
      have hany : row.any RawComponent.isContainer = true :=
        List.any_eq_true.mpr ⟨c, hc, hcv⟩
      simp [validateRow, hany] at hok

/-- Witness for C3: a row whose only child is an (empty) ActionRow fails with
`NestedContainerNotAllowed`. -/
theorem nested_container_rejected_witness :
    validateRow [RawComponent.actionRow []] = .error .NestedContainerNotAllowed :=
  nested_container_rejected.1 [RawComponent.actionRow []] []
    (List.mem_singleton.mpr rfl)

/-- C6: under the checks that precede row composition (no nested container,
arity within the limit), a row containing a selection control next to at least
one other component — which covers both mixing a select menu with other
components and having more than one select menu — fails with
`InvalidRowComposition`; and a successfully validated row either has no
selection control at all or is exactly one select menu and nothing else. -/
theorem row_composition_policy (row : List RawComponent)
    (hnc : ∀ c ∈ row, c.isContainer = false)
    (hlen : row.length ≤ maxRowChildren) :
    ((∃ c ∈ row, c.isSelect = true) → 2 ≤ row.length →
      validateRow row = .error .InvalidRowComposition) ∧
    (validateRow row = .ok () →
      (∀ c ∈ row, c.isSelect = false) ∨ ∃ m, row = [RawComponent.selectMenu m]) := by
  have hany : row.any RawComponent.isContainer = false := by
    rw [List.any_eq_false]
    intro c hc
    simp [hnc c hc]
  have hlen' : ¬ (maxRowChildren < row.length) := not_lt.mpr hlen
  constructor
  · rintro ⟨c, hc, hsel⟩ h2
    have hall : row.all (fun x => !x.isSelect) = false := by
      rw [List.all_eq_false]
      exact ⟨c, hc, by simp [hsel]⟩
    have hcomp : rowCompositionOk row = false := by
      rcases row with _ | ⟨a, _ | ⟨b, rest⟩⟩
      · exact absurd h2 (by simp)
      · exact absurd h2 (by simp)
      · simp [rowCompositionOk, isSingletonSelect, hall]
    simp [validateRow, hany, hlen', hcomp]
  · intro hok
    have hcomp : rowCompositionOk row = true := by
      cases hcv : rowCompositionOk row
      · exfalso
        simp [validateRow, hany, hlen', hcv] at hok
      · rfl
    rw [rowCompositionOk, Bool.or_eq_true] at hcomp
    rcases hcomp with hall | hone
    · left
      intro c hc
      have := List.all_eq_true.mp hall c hc
      simpa using this
    · right
      rcases row with _ | ⟨a, _ | ⟨b, rest⟩⟩
      · simp [isSingletonSelect] at hone
      · rw [isSingletonSelect] at hone
        cases a with
        | actionRow cs => exact absurd hone (by simp [RawComponent.isSelect])
        | button b0 => exact absurd hone (by simp [RawComponent.isSelect])
        | selectMenu m => exact ⟨m, rfl⟩
        | textInput t => exact absurd hone (by simp [RawComponent.isSelect])
      · simp [isSingletonSelect] at hone

/-- Witness for C6: a row mixing a select menu with a button fails with
`InvalidRowComposition`. -/
theorem row_composition_policy_witness :
    validateRow [RawComponent.selectMenu sampleSelect, RawComponent.button sampleButton]
      = .error .InvalidRowComposition :=
  (row_composition_policy
      [RawComponent.selectMenu sampleSelect, RawComponent.button sampleButton]
      (by intro c hc
          rcases List.mem_cons.mp hc with h | h
          · rw [h]; rfl
          · rw [List.mem_singleton.mp h]; rfl)
      (by decide)).1
    ⟨RawComponent.selectMenu sampleSelect, List.mem_cons_self _ _, rfl⟩ (by decide)

/-! ## Select-menu bounds (claim C7) -/

lemma seq_ok (x y : Except ValidationError Unit) :
    (do x; y) = .ok () ↔ (x = .ok () ∧ y = .ok ()) := by
  cases x with
  | error e => simp [Bind.bind, Except.bind]
  | ok u => cases u; simp [Bind.bind, Except.bind]

lemma checkRange25_ok (s : String) (o : Option Int) :
    checkRange25 s o = .ok () ↔ ∀ v, o = some v → 0 ≤ v ∧ v ≤ 25 := by
  cases o with
  | none => simp [checkRange25]
  | some v => by_cases h : 0 ≤ v ∧ v ≤ 25 <;> simp [checkRange25, h]

/-- C7: a select menu's `min_values` and `max_values` are restricted to
`[0, 25]` — both bounds of a successfully validated component lie in that
range — and the spec scenario `min_values: 0, max_values: 26` fails with
`OutOfRange` naming `max_values`. -/
theorem select_menu_bounds (m : RawSelectMenu) :
    (validateSelectMenu m = .ok () →
      (∀ v, m.min_values = some v → 0 ≤ v ∧ v ≤ 25) ∧
      (∀ v, m.max_values = some v → 0 ≤ v ∧ v ≤ 25)) ∧
    (m.min_values = some 0 → m.max_values = some 26 →
      validateSelectMenu m = .error (.OutOfRange "max_values")) := by
  constructor
  · intro hok
    unfold validateSelectMenu at hok
    rw [seq_ok] at hok
    exact ⟨(checkRange25_ok _ _).mp hok.1, (checkRange25_ok _ _).mp hok.2⟩
  · intro h1 h2
    unfold validateSelectMenu
    rw [h1, h2]
    norm_num [checkRange25, Bind.bind, Except.bind]

/-- Witness for C7: the concrete out-of-range select menu
(`min_values: 0, max_values: 26`) fails at `max_values`. -/
theorem select_menu_bounds_witness :
    validateSelectMenu outOfRangeSelect = .error (.OutOfRange "max_values") :=
  (select_menu_bounds outOfRangeSelect).2 rfl rfl

/-! ## Discriminant registries (claim C9) -/

/-- C9: in each registered discriminated family (message types, component
types, button styles, activity types, reference types) a discriminant value
identifies at most one variant: the value functions are injective, lookup of a
variant's value returns exactly that variant, the deprecated `SelectMenu` name
denotes the same variant as `StringSelect`, and lookups are deterministic
functions of the immutable table. -/
theorem discriminant_registry_functional :
    (∀ a b : MessageType, a.value = b.value → a = b) ∧
    (∀ a : MessageType, messageTypeFromValue (a.value : Int) = some a) ∧
    (∀ a b : ComponentType, a.value = b.value → a = b) ∧
    (∀ a : ComponentType, componentTypeFromValue a.value = some a) ∧
    (∀ a b : ButtonStyle, a.value = b.value → a = b) ∧
    (∀ a : ButtonStyle, buttonStyleFromValue a.value = some a) ∧
    (∀ a b : MessageActivityType, a.value = b.value → a = b) ∧
    (∀ a : MessageActivityType, messageActivityTypeFromValue a.value = some a) ∧
    (∀ a b : MessageReferenceType, a.value = b.value → a = b) ∧
    (∀ a : MessageReferenceType, messageReferenceTypeFromValue a.value = some a) ∧
    ComponentType.SelectMenu = ComponentType.StringSelect ∧
    (∀ (n : Int) (a b : MessageType),
      messageTypeFromValue n = some a → messageTypeFromValue n = some b → a = b) := by
  refine ⟨by decide, by decide, by decide, by decide, by decide, by decide,
    by decide, by decide, by decide, by decide, rfl, ?_⟩
  intro n a b h1 h2
  rw [h1] at h2
  exact Option.some.inj h2

/-- Witness for C9: two lookups of the concrete discriminant value `19` both
return the `Reply` variant, hence agree. -/
theorem discriminant_registry_functional_witness :
    MessageType.Reply = MessageType.Reply :=
  discriminant_registry_functional.2.2.2.2.2.2.2.2.2.2.2 19
    MessageType.Reply MessageType.Reply (by decide) (by decide)

/-! ## Lookup and tri-state lemmas for the normalizer (claims C4, C5, C8) -/

lemma lookup_map_names {α : Type} (g : String → α) (names : List String) (k : String) :
    lookupField (names.map (fun k' => (k', g k'))) k
      = if k ∈ names then some (g k) else none := by
  induction names with
  | nil => simp [lookupField]
  | cons a L ih =>
    simp only [List.map_cons, lookupField]
    by_cases hak : a = k
    · subst hak
      simp
    · have hka : ¬ (k = a) := fun h => hak h.symm
      simp [hak, hka, ih, List.mem_cons]

/-- Looking up a schema field in the canonical form yields the classification
of the corresponding wire field. -/
lemma known_lookup (w : List (String × Json)) (k : String)
    (hk : k ∈ messageFieldNames) :
    lookupField (normalizeMessage w).known k
      = some (classifyVal (lookupField w k)) := by
  show lookupField
      (messageFieldNames.map fun k' => (k', classifyVal (lookupField w k'))) k = _
  rw [lookup_map_names]
  simp [hk]

lemma classifyVal_some_ne (v : Json) (h : v ≠ Json.null) :
    classifyVal (some v) = .present v := by
  cases v <;> first | rfl | exact absurd rfl h

lemma classify_emit (t : FieldState) (h : wellFormedState t = true) :
    classifyVal (emitVal t) = t := by
  cases t with
  | absent => rfl
  | null => rfl
  | present v =>
    cases v <;> first | rfl | exact absurd h (by simp [wellFormedState])

lemma wellFormed_classify (o : Option Json) : wellFormedState (classifyVal o) = true := by
  cases o with
  | none => rfl
  | some v => cases v <;> rfl

lemma emit_injective (t₁ t₂ : FieldState) (h₁ : wellFormedState t₁ = true)
    (h₂ : wellFormedState t₂ = true) (h : emitVal t₁ = emitVal t₂) : t₁ = t₂ := by
  rw [← classify_emit t₁ h₁, ← classify_emit t₂ h₂, h]

lemma lookup_none_of_keys {α : Type} (xs : List (String × α)) (k : String)
    (h : ∀ kv ∈ xs, kv.1 ≠ k) : lookupField xs k = none := by
  induction xs with
  | nil => rfl
  | cons a rest ih =>
    obtain ⟨k', v⟩ := a
    show (if k' = k then some v else lookupField rest k) = none
    rw [if_neg (h (k', v) (List.mem_cons_self _ _))]
    exact ih (fun kv hkv => h kv (List.mem_cons_of_mem _ hkv))

lemma lookup_append_some {α : Type} (xs ys : List (String × α)) (k : String)
    (v : α) (h : lookupField xs k = some v) : lookupField (xs ++ ys) k = some v := by
  induction xs with
  | nil => exact Option.noConfusion h
  | cons a rest ih =>
    obtain ⟨k', v'⟩ := a
    by_cases hk : k' = k
    · show (if k' = k then some v' else lookupField (rest ++ ys) k) = some v
      rw [if_pos hk]
      rw [show lookupField ((k', v') :: rest) k
          = (if k' = k then some v' else lookupField rest k) from rfl, if_pos hk] at h
      exact h
    · show (if k' = k then some v' else lookupField (rest ++ ys) k) = some v
      rw [if_neg hk]
      rw [show lookupField ((k', v') :: rest) k
          = (if k' = k then some v' else lookupField rest k) from rfl, if_neg hk] at h
      exact ih h

lemma lookup_append_none {α : Type} (xs ys : List (String × α)) (k : String)
    (h : lookupField xs k = none) : lookupField (xs ++ ys) k = lookupField ys k := by
  induction xs with
  | nil => rfl
  | cons a rest ih =>
    obtain ⟨k', v'⟩ := a
    by_cases hk : k' = k
    · rw [show lookupField ((k', v') :: rest) k
          = (if k' = k then some v' else lookupField rest k) from rfl, if_pos hk] at h
      exact Option.noConfusion h
    · show (if k' = k then some v' else lookupField (rest ++ ys) k) = lookupField ys k
      rw [if_neg hk]
      rw [show lookupField ((k', v') :: rest) k
          = (if k' = k then some v' else lookupField rest k) from rfl, if_neg hk] at h
      exact ih h

/-- Every entry of the emitted known-field list has its key among the schema
field names it was emitted from. -/
lemma emit_keys_mem (g : String → FieldState) (L : List String) (kv : String × Json)
    (h : kv ∈ (L.map (fun k' => (k', g k'))).filterMap
      (fun kt => (emitVal kt.2).map (fun v => (kt.1, v)))) :
    kv.1 ∈ L := by
  rcases List.mem_filterMap.mp h with ⟨kt, hkt, hmap⟩
  rcases List.mem_map.mp hkt with ⟨k', hk', rfl⟩
  rcases Option.map_eq_some'.mp hmap with ⟨v, hv, hkv⟩
  rw [← hkv]
  exact hk'

/-- Looking up a schema field in the emitted known-field list yields exactly
that field's emission, provided the schema names are distinct. -/
lemma lookup_filterMap_emit (g : String → FieldState) (names : List String)
    (k : String) (hnd : names.Nodup) (hk : k ∈ names) :
    lookupField ((names.map (fun k' => (k', g k'))).filterMap
        (fun kt => (emitVal kt.2).map (fun v => (kt.1, v)))) k
      = emitVal (g k) := by
  induction names with
  | nil => exact absurd hk (List.not_mem_nil k)
  | cons a L ih =>
    have hndL : L.Nodup := (List.nodup_cons.mp hnd).2
    have haL : a ∉ L := (List.nodup_cons.mp hnd).1
    simp only [List.map_cons, List.filterMap_cons]
    cases hg : emitVal (g a) with
    | none =>
      rcases List.mem_cons.mp hk with hka | hkL
      · subst hka
        rw [lookup_none_of_keys, hg]
        intro kv hkv hk1
        exact haL (hk1 ▸ emit_keys_mem g L kv hkv)
      · exact ih hndL hkL
    | some v =>
      rcases List.mem_cons.mp hk with hka | hkL
      · subst hka
        show (if k = k then some v else _) = emitVal (g k)
        rw [if_pos rfl, hg]
      · show (if a = k then some v else lookupField
          ((L.map fun k' => (k', g k')).filterMap
            fun kt => (emitVal kt.2).map fun v => (kt.1, v)) k) = emitVal (g k)
        rw [if_neg (fun h : a = k => haL (h ▸ hkL))]
        exact ih hndL hkL

/-- Looking up a schema field in the re-serialized canonical form yields the
emission of that field's original classification. -/
lemma serialize_normalize_lookup (w : List (String × Json)) (k : String)
    (hk : k ∈ messageFieldNames) :
    lookupField (serializeMessage (normalizeMessage w)) k
      = emitVal (classifyVal (lookupField w k)) := by
  have hnd : messageFieldNames.Nodup := by decide
  have hemit := lookup_filterMap_emit
    (fun k' => classifyVal (lookupField w k')) messageFieldNames k hnd hk
  have hex : ∀ kv ∈ (normalizeMessage w).extras, kv.1 ≠ k := by
    intro kv hkv hk1
    have hmem := List.mem_filter.mp hkv
    rw [hk1] at hmem
    simp [hk] at hmem
  show lookupField
      (((messageFieldNames.map fun k' => (k', classifyVal (lookupField w k'))).filterMap
        fun kt => (emitVal kt.2).map fun v => (kt.1, v)) ++ (normalizeMessage w).extras) k = _
  cases hcv : emitVal (classifyVal (lookupField w k)) with
  | some v =>
    apply lookup_append_some
    rw [hemit, hcv]
  | none =>
    rw [lookup_append_none _ _ _ (by rw [hemit, hcv]),
      lookup_none_of_keys _ _ hex]

/-- The extras bag survives one serialize-then-normalize cycle unchanged. -/
lemma serialize_normalize_extras (w : List (String × Json)) :
    (normalizeMessage (serializeMessage (normalizeMessage w))).extras
      = (normalizeMessage w).extras := by
  show (serializeMessage (normalizeMessage w)).filter
      (fun kv => !(decide (kv.1 ∈ messageFieldNames)))
    = w.filter (fun kv => !(decide (kv.1 ∈ messageFieldNames)))
  rw [serializeMessage, List.filter_append]
  have h1 : ((normalizeMessage w).known.filterMap
      (fun kt => (emitVal kt.2).map (fun v => (kt.1, v)))).filter
        (fun kv => !(decide (kv.1 ∈ messageFieldNames))) = [] := by
    rw [List.filter_eq_nil_iff]
    intro kv hkv
    have := emit_keys_mem (fun k' => classifyVal (lookupField w k'))
      messageFieldNames kv hkv
    simp [this]
  have h2 : ((normalizeMessage w).extras).filter
      (fun kv => !(decide (kv.1 ∈ messageFieldNames))) = (normalizeMessage w).extras := by
    rw [List.filter_eq_self]
    intro kv hkv
    exact (List.mem_filter.mp hkv).2
  rw [h1, h2]
  rfl

lemma normalize_serialize_normalize (w : List (String × Json)) :
    normalizeMessage (serializeMessage (normalizeMessage w)) = normalizeMessage w := by
  have hknown : (normalizeMessage (serializeMessage (normalizeMessage w))).known
      = (normalizeMessage w).known := by
    show messageFieldNames.map
        (fun k => (k, classifyVal (lookupField (serializeMessage (normalizeMessage w)) k)))
      = messageFieldNames.map (fun k => (k, classifyVal (lookupField w k)))
    apply List.map_congr_left
    intro k hk
    rw [serialize_normalize_lookup w k hk,
      classify_emit _ (wellFormed_classify (lookupField w k))]
  have hextras := serialize_normalize_extras w
  cases hE : normalizeMessage (serializeMessage (normalizeMessage w)) with
  | mk kn ex =>
    cases hW : normalizeMessage w with
    | mk kn' ex' =>
      rw [hE, hW] at hknown hextras
      simp only at hknown hextras
      rw [hknown, hextras]

/-! ## Field-policy validation lemmas (claim C5) -/

lemma checkFieldPolicy_ok_of (k : String) (t : FieldState)
    (h : fieldStateOk (messagePolicy k) t = true) :
    checkFieldPolicy k t = .ok () := by
  cases hp : messagePolicy k <;> cases t <;>
    simp_all [checkFieldPolicy, fieldStateOk]

lemma validateFieldList_ok (names : List String) (w : List (String × Json))
    (h : ∀ k ∈ names,
      fieldStateOk (messagePolicy k) (classifyVal (lookupField w k)) = true) :
    validateFieldList names w = .ok () := by
  induction names with
  | nil => rfl
  | cons k rest ih =>
    have h1 : checkFieldPolicy k (classifyVal (lookupField w k)) = .ok () :=
      checkFieldPolicy_ok_of _ _ (h k (List.mem_cons_self _ _))
    show (do
      checkFieldPolicy k (classifyVal (lookupField w k))
      validateFieldList rest w) = .ok ()
    rw [h1]
    show validateFieldList rest w = .ok ()
    exact ih (fun k' hk' => h k' (List.mem_cons_of_mem _ hk'))

/-- C5: for every wire message conforming to a registered variant, validation
succeeds; normalize-serialize-normalize is the identity on canonical forms for
every wire message; and serialization reproduces each field's presence state
exactly — Absent is omitted, Null is emitted as the null token, Present is
emitted with its value — with the emission rule injective on well-formed
states, so no two of the three states collapse into one emission. -/
theorem validate_serialize_roundTrip :
    (∀ w : List (String × Json), conformsMessage w = true →
      ∃ r, validateMessage .strict w = .ok r) ∧
    (∀ w : List (String × Json),
      normalizeMessage (serializeMessage (normalizeMessage w)) = normalizeMessage w) ∧
    (emitVal .absent = none ∧ emitVal .null = some Json.null ∧
      ∀ v, emitVal (.present v) = some v) ∧
    (∀ t₁ t₂ : FieldState, wellFormedState t₁ = true → wellFormedState t₂ = true →
      emitVal t₁ = emitVal t₂ → t₁ = t₂) := by
  refine ⟨?_, normalize_serialize_normalize, ⟨rfl, rfl, fun v => rfl⟩, emit_injective⟩
  intro w hc
  rw [conformsMessage, Bool.and_eq_true] at hc
  obtain ⟨hdisc, hfields⟩ := hc
  cases htype : lookupField w "type" with
  | none =>
    rw [htype] at hdisc
    exact absurd hdisc (by simp)
  | some j =>
    cases j with
    | num n =>
      rw [htype] at hdisc
      have hreg : isRegisteredMessageType n = true := hdisc
      have hsome : (messageTypeFromValue n).isSome := by
        rw [messageTypeFromValue, List.find?_isSome]
        rw [isRegisteredMessageType, List.any_eq_true] at hreg
        exact hreg
      obtain ⟨t', ht'⟩ := Option.isSome_iff_exists.mp hsome
      refine ⟨.variant t' (normalizeMessage w), ?_⟩
      have hres : resolveMessage .strict w = .ok (.variant t' (normalizeMessage w)) := by
        unfold resolveMessage
        rw [htype]
        show resolveRegistered .strict (normalizeMessage w) (messageTypeFromValue n)
          = .ok (.variant t' (normalizeMessage w))
        rw [ht']
        rfl
      show (do
        let r ← resolveMessage .strict w
        validateFieldList messageFieldNames w
        pure r) = Except.ok (.variant t' (normalizeMessage w))
      rw [hres]
      show (do
        validateFieldList messageFieldNames w
        pure (ResolvedMessage.variant t' (normalizeMessage w))
          : Except ValidationError ResolvedMessage)
        = Except.ok (.variant t' (normalizeMessage w))
      rw [validateFieldList_ok messageFieldNames w (List.all_eq_true.mp hfields)]
      rfl
    | null => rw [htype] at hdisc; exact absurd hdisc (by simp)
    | bool b => rw [htype] at hdisc; exact absurd hdisc (by simp)
    | str s => rw [htype] at hdisc; exact absurd hdisc (by simp)
    | arr xs => rw [htype] at hdisc; exact absurd hdisc (by simp)
    | obj fs => rw [htype] at hdisc; exact absurd hdisc (by simp)

/-- Witness for C5: the concrete conforming `Default`-type message validates
successfully in strict mode. -/
theorem validate_serialize_roundTrip_witness :
    ∃ r, validateMessage .strict conformingWire = .ok r :=
  validate_serialize_roundTrip.1 conformingWire (by decide)

/-! ## Reply-reference tri-state (claim C4) -/

/-- C4: `Reply` is discriminant `19`; for a reply payload, a
`referenced_message` key present with value null normalizes to the
referenced-message-deleted marker, an absent key normalizes to the
resolution-not-attempted marker, and a present non-null value normalizes to
the resolved marker — three pairwise distinct outcomes. -/
theorem reply_reference_tristate :
    MessageType.Reply.value = 19 ∧
    (∀ w : List (String × Json), lookupField w "type" = some (Json.num 19) →
      (lookupField w "referenced_message" = some Json.null →
        refStatus (normalizeMessage w) = .deleted) ∧
      (lookupField w "referenced_message" = none →
        refStatus (normalizeMessage w) = .notAttempted) ∧
      (∀ v, lookupField w "referenced_message" = some v → v ≠ Json.null →
        refStatus (normalizeMessage w) = .resolved v)) ∧
    (RefResolution.deleted ≠ RefResolution.notAttempted ∧
      (∀ v, RefResolution.resolved v ≠ RefResolution.deleted) ∧
      (∀ v, RefResolution.resolved v ≠ RefResolution.notAttempted)) := by
  refine ⟨rfl, ?_, fun h => RefResolution.noConfusion h,
    fun v h => RefResolution.noConfusion h,
    fun v h => RefResolution.noConfusion h⟩
  intro w htype
  have hlook := known_lookup w "referenced_message" (by decide)
  refine ⟨?_, ?_, ?_⟩
  · intro h
    unfold refStatus
    rw [hlook, h]
    rfl
  · intro h
    unfold refStatus
    rw [hlook, h]
    rfl
  · intro v h hne
    unfold refStatus
    rw [hlook, h, classifyVal_some_ne v hne]

/-- Witness for C4: the two concrete reply scenarios from the spec yield the
two distinct markers. -/
theorem reply_reference_tristate_witness :
    refStatus (normalizeMessage replyDeletedWire) = RefResolution.deleted ∧
    refStatus (normalizeMessage replyUnresolvedWire) = RefResolution.notAttempted :=
  ⟨(reply_reference_tristate.2.1 replyDeletedWire rfl).1 rfl,
   (reply_reference_tristate.2.1 replyUnresolvedWire rfl).2.1 rfl⟩

/-! ## Unknown discriminants, strict versus lenient (claim C8) -/

/-- C8: a message payload whose discriminant is the unregistered value `9999`
fails with `UnknownVariant` in strict mode, while lenient mode returns,
non-fatally, the generic variant built from the same canonical form — which
retains every universally-shared field (here spelled out for `id` and
`content`) and carries the unrecognized fields in the extras bag. -/
theorem unknown_discriminant_modes (w : List (String × Json))
    (h : lookupField w "type" = some (Json.num 9999)) :
    resolveMessage .strict w = .error .UnknownVariant ∧
    resolveMessage .lenient w = .ok (.generic (normalizeMessage w)) ∧
    lookupField (normalizeMessage w).known "id"
      = some (classifyVal (lookupField w "id")) ∧
    lookupField (normalizeMessage w).known "content"
      = some (classifyVal (lookupField w "content")) ∧
    (normalizeMessage w).extras
      = w.filter (fun kv => !(decide (kv.1 ∈ messageFieldNames))) := by
  have hnone : messageTypeFromValue 9999 = none := by decide
  refine ⟨?_, ?_, known_lookup w "id" (by decide),
    known_lookup w "content" (by decide), rfl⟩
  · unfold resolveMessage
    rw [h]
    show resolveRegistered .strict (normalizeMessage w) (messageTypeFromValue 9999)
      = .error .UnknownVariant
    rw [hnone]
    rfl
  · unfold resolveMessage
    rw [h]
    show resolveRegistered .lenient (normalizeMessage w) (messageTypeFromValue 9999)
      = .ok (.generic (normalizeMessage w))
    rw [hnone]
    rfl

/-- Witness for C8: the concrete `type: 9999` payload is rejected in strict
mode and resolved to the generic variant in lenient mode. -/
theorem unknown_discriminant_modes_witness :
    resolveMessage .strict unknownTypeWire = .error .UnknownVariant ∧
    resolveMessage .lenient unknownTypeWire
      = .ok (.generic (normalizeMessage unknownTypeWire)) :=
  ⟨(unknown_discriminant_modes unknownTypeWire rfl).1,
   (unknown_discriminant_modes unknownTypeWire rfl).2.1⟩

end DiscordV9
